import Mathlib

/-!
Shallow embedding of the core of the `trading-engine` repository
(event bus, order/position accounting, portfolio risk gate, simulated
exchange), with theorems checking the natural-language specification
against the code.

Conventions of the embedding:
* C++ `double` is modelled as `ℚ` (the spec states its price/cash
  identities as exact equalities);
* C++ `int64_t` is modelled as `ℤ`;
* `std::string` keys are `String`; `std::unordered_map` is an
  association list (insertion order stands in for iteration order);
* every definition is transcribed from the corresponding C++ function.
-/

namespace Engine

/-- `Side` from `event/OrderEvent.h`. -/
inductive Side where
  | BUY
  | SELL
deriving DecidableEq, Repr

/-- `OrderStatus` from `event/OrderEvent.h`. -/
inductive OrderStatus where
  | PENDING_NEW
  | NEW
  | PARTIALLY_FILLED
  | FILLED
  | PENDING_CANCEL
  | CANCELLED
  | REJECTED
deriving DecidableEq, Repr

/-- `OrderType` from `event/OrderEvent.h`. -/
inductive OrderType where
  | MARKET
  | LIMIT
  | STOP
  | STOP_LIMIT
  | IOC
  | FOK
deriving DecidableEq, Repr

/-- `EventType` from `event/Event.h`. -/
inductive EventType where
  | MARKET_DATA
  | ORDER
  | FILL
  | TIMER
  | SYSTEM
  | RISK
deriving DecidableEq, Repr

/-- Payload of an `OrderEvent` (`event/OrderEvent.h`); timestamps are
not modelled. -/
structure OrderEventData where
  orderId : String
  symbol : String
  side : Side
  type : OrderType
  status : OrderStatus
  price : ℚ
  quantity : ℤ
  filledQuantity : ℤ := 0
  rejectReason : String := ""
deriving DecidableEq, Repr

/-- Payload of a `FillEvent` (`event/OrderEvent.h`). -/
structure FillEvent where
  orderId : String
  symbol : String
  side : Side
  fillPrice : ℚ
  fillQuantity : ℤ
  executionId : String := ""
deriving DecidableEq, Repr

/-- Association-list lookup, modelling `std::unordered_map::find`. -/
def lookupKey {κ α : Type} [DecidableEq κ] (k : κ) : List (κ × α) → Option α
  | [] => none
  | (k', v) :: rest => if k' = k then some v else lookupKey k rest

/-- Association-list insert-or-assign, modelling `map[k] = v`. -/
def updateKey {κ α : Type} [DecidableEq κ] (k : κ) (v : α) : List (κ × α) → List (κ × α)
  | [] => [(k, v)]
  | (k', v') :: rest => if k' = k then (k, v) :: rest else (k', v') :: updateKey k v rest

/-- Association-list erase, modelling `map.erase(it)`. -/
def eraseKey {κ α : Type} [DecidableEq κ] (k : κ) : List (κ × α) → List (κ × α)
  | [] => []
  | (k', v') :: rest => if k' = k then rest else (k', v') :: eraseKey k rest

/-- `Order` from `order/Order.h` (timestamps are not modelled). -/
structure Order where
  orderId : String
  symbol : String
  side : Side
  type : OrderType
  status : OrderStatus
  limitPrice : ℚ
  quantity : ℤ
  filledQuantity : ℤ
  averageFillPrice : ℚ
  rejectReason : String := ""
deriving DecidableEq, Repr

namespace Order

/-- The `Order` constructor: fresh order in status `PENDING_NEW`,
nothing filled. -/
def init (orderId symbol : String) (side : Side) (type : OrderType)
    (price : ℚ) (quantity : ℤ) : Order :=
  { orderId := orderId, symbol := symbol, side := side, type := type,
    status := OrderStatus.PENDING_NEW, limitPrice := price,
    quantity := quantity, filledQuantity := 0, averageFillPrice := 0 }

/-- `Order::isActive` from `order/Order.h`:
`NEW || PARTIALLY_FILLED || PENDING_NEW`. -/
def isActive (o : Order) : Bool :=
  o.status = OrderStatus.NEW ∨ o.status = OrderStatus.PARTIALLY_FILLED ∨
    o.status = OrderStatus.PENDING_NEW

/-- `Order::applyFill` from `order/Order.h`. -/
def applyFill (o : Order) (fillQuantity : ℤ) (fillPrice : ℚ) : Order :=
  let previousFilled := o.filledQuantity
  let filled := previousFilled + fillQuantity
  let avg :=
    if previousFilled = 0 then fillPrice
    else (o.averageFillPrice * previousFilled + fillPrice * fillQuantity) / filled
  let status :=
    if o.quantity ≤ filled then OrderStatus.FILLED
    else if 0 < filled then OrderStatus.PARTIALLY_FILLED
    else o.status
  { o with filledQuantity := filled, averageFillPrice := avg, status := status }

/-- `Order::updateFromEvent` from `order/Order.h`. -/
def updateFromEvent (o : Order) (e : OrderEventData) : Order :=
  { o with
    status := e.status
    filledQuantity := e.filledQuantity
    rejectReason := if e.rejectReason ≠ "" then e.rejectReason else o.rejectReason }

end Order

/-- `Position` from `order/Position.h`. -/
structure Position where
  symbol : String
  quantity : ℤ
  averagePrice : ℚ
  realizedPnL : ℚ
deriving DecidableEq, Repr

namespace Position

/-- The `Position` constructor: flat position. -/
def init (symbol : String) : Position :=
  { symbol := symbol, quantity := 0, averagePrice := 0, realizedPnL := 0 }

/-- `Position::isFlat`. -/
def isFlat (p : Position) : Bool := p.quantity = 0

/-- `Position::getUnrealizedPnL`. -/
def getUnrealizedPnL (p : Position) (currentPrice : ℚ) : ℚ :=
  if p.quantity = 0 then 0 else p.quantity * (currentPrice - p.averagePrice)

/-- `Position::applyFill` from `order/Position.h`, transcribed branch
by branch. -/
def applyFill (p : Position) (side : Side) (fillQuantity : ℤ) (fillPrice : ℚ) : Position :=
  let signedQuantity := match side with
    | Side.BUY => fillQuantity
    | Side.SELL => -fillQuantity
  let sameDirection :=
    (0 ≤ p.quantity ∧ 0 < signedQuantity) ∨ (p.quantity < 0 ∧ signedQuantity < 0)
  if ¬ sameDirection ∧ p.quantity ≠ 0 then
    let closingQuantity := min |signedQuantity| |p.quantity|
    let realized :=
      if 0 < p.quantity then
        p.realizedPnL + (closingQuantity : ℚ) * (fillPrice - p.averagePrice)
      else
        p.realizedPnL + (closingQuantity : ℚ) * (p.averagePrice - fillPrice)
    let newQty := p.quantity + signedQuantity
    let avg :=
      if (0 < newQty ∧ 0 < signedQuantity) ∨ (newQty < 0 ∧ signedQuantity < 0) then
        fillPrice
      else p.averagePrice
    { p with quantity := newQty, averagePrice := avg, realizedPnL := realized }
  else
    if p.quantity = 0 then
      { p with quantity := signedQuantity, averagePrice := fillPrice }
    else
      let totalQuantity := p.quantity + signedQuantity
      { p with
        quantity := totalQuantity
        averagePrice := (p.averagePrice * p.quantity + fillPrice * signedQuantity) / totalQuantity }

end Position

/-- State of `OrderManager` (`order/OrderManager.h`): the `orders_`
and `positions_` maps. Subscriptions and the mutex are not modelled;
reactive behaviour is modelled by feeding events to the handlers. -/
structure OMState where
  orders : List (String × Order)
  positions : List (String × Position)
deriving DecidableEq, Repr

namespace OMState

/-- A fresh `OrderManager`: both maps empty. -/
def empty : OMState := { orders := [], positions := [] }

/-- `OrderManager::submitOrder`: stores a fresh order under its id
(`orders_[orderId] = order`, overwriting any existing entry) and
returns the `PENDING_NEW` order event that it publishes. -/
def submitOrder (st : OMState) (orderId symbol : String) (side : Side)
    (type : OrderType) (price : ℚ) (quantity : ℤ) : OMState × OrderEventData :=
  ({ st with orders := updateKey orderId (Order.init orderId symbol side type price quantity) st.orders },
   { orderId := orderId, symbol := symbol, side := side, type := type,
     status := OrderStatus.PENDING_NEW, price := price, quantity := quantity })

/-- `OrderManager::cancelOrder`: if the order exists and
`Order::isActive` holds, returns the `PENDING_CANCEL` event that it
publishes (a snapshot of the order); otherwise publishes nothing. -/
def cancelOrder (st : OMState) (orderId : String) : Option OrderEventData :=
  match lookupKey orderId st.orders with
  | none => none
  | some o =>
    if o.isActive then
      some { orderId := orderId, symbol := o.symbol, side := o.side, type := o.type,
             status := OrderStatus.PENDING_CANCEL, price := o.limitPrice,
             quantity := o.quantity, filledQuantity := o.filledQuantity }
    else none

/-- `OrderManager::getOrder`. -/
def getOrder (st : OMState) (orderId : String) : Option Order :=
  lookupKey orderId st.orders

/-- `OrderManager::getActiveOrders`. -/
def getActiveOrders (st : OMState) : List Order :=
  (st.orders.map Prod.snd).filter Order.isActive

/-- `OrderManager::getActiveOrdersForSymbol`. -/
def getActiveOrdersForSymbol (st : OMState) (symbol : String) : List Order :=
  (st.orders.map Prod.snd).filter (fun o => o.isActive ∧ o.symbol = symbol)

/-- `OrderManager::getActiveOrderCount`. -/
def getActiveOrderCount (st : OMState) : ℕ :=
  ((st.orders.map Prod.snd).filter Order.isActive).length

/-- `OrderManager::getPosition` (`nullptr` becomes `none`). -/
def getPosition (st : OMState) (symbol : String) : Option Position :=
  lookupKey symbol st.positions

/-- `OrderManager::getAllPositions`: only non-flat positions. -/
def getAllPositions (st : OMState) : List Position :=
  (st.positions.map Prod.snd).filter (fun p => ¬ p.isFlat)

/-- `OrderManager::getTotalRealizedPnL`. -/
def getTotalRealizedPnL (st : OMState) : ℚ :=
  (st.positions.map Prod.snd).foldl (fun acc p => acc + p.realizedPnL) 0

/-- `OrderManager::onFillEvent`: apply the fill to the order when its
id is known, and to the (created-on-demand) position of the fill's
symbol. -/
def onFillEvent (st : OMState) (f : FillEvent) : OMState :=
  let orders :=
    match lookupKey f.orderId st.orders with
    | some o => updateKey f.orderId (o.applyFill f.fillQuantity f.fillPrice) st.orders
    | none => st.orders
  let positions :=
    match lookupKey f.symbol st.positions with
    | some p => updateKey f.symbol (p.applyFill f.side f.fillQuantity f.fillPrice) st.positions
    | none => updateKey f.symbol ((Position.init f.symbol).applyFill f.side f.fillQuantity f.fillPrice) st.positions
  { orders := orders, positions := positions }

/-- `OrderManager::onOrderEvent`: update a known order from the event,
or create it from the event payload. -/
def onOrderEvent (st : OMState) (e : OrderEventData) : OMState :=
  match lookupKey e.orderId st.orders with
  | some o => { st with orders := updateKey e.orderId (o.updateFromEvent e) st.orders }
  | none =>
    let o := (Order.init e.orderId e.symbol e.side e.type e.price e.quantity).updateFromEvent e
    { st with orders := updateKey e.orderId o st.orders }

/-- Deliver a sequence of Fill events to the `OrderManager`, in order. -/
def deliverFills (st : OMState) (fills : List FillEvent) : OMState :=
  fills.foldl onFillEvent st

end OMState

/-- State of `Portfolio` (`risk/Portfolio.cpp`): capital, cash, risk
limits, and the exclusively owned `OrderManager`. -/
structure PortfolioState where
  initialCapital : ℚ
  cash : ℚ
  om : OMState
  maxPositionSize : ℚ
  maxPortfolioExposure : ℚ
deriving DecidableEq, Repr

namespace PortfolioState

/-- `Portfolio::Portfolio(initialCapital)` with the default limits
(`$1M` per position, `$5M` total exposure). -/
def init (initialCapital : ℚ) : PortfolioState :=
  { initialCapital := initialCapital, cash := initialCapital, om := OMState.empty,
    maxPositionSize := 1000000, maxPortfolioExposure := 5000000 }

/-- The exposure accumulation loop inside
`Portfolio::preTradeRiskCheck`: sum `|qty × mark|` over the given
positions, skipping the submitted symbol and symbols without a mark
price. -/
def exposureLoop (positions : List Position) (symbol : String)
    (marketPrices : List (String × ℚ)) : ℚ :=
  positions.foldl
    (fun acc pos =>
      if pos.symbol = symbol then acc
      else
        match lookupKey pos.symbol marketPrices with
        | some mp => acc + |(pos.quantity : ℚ) * mp|
        | none => acc) 0

/-- `Portfolio::preTradeRiskCheck` from `risk/Portfolio.cpp`,
transcribed check by check. -/
def preTradeRiskCheck (pf : PortfolioState) (symbol : String) (side : Side)
    (price : ℚ) (quantity : ℤ) (marketPrices : List (String × ℚ)) : Bool :=
  let orderValue := price * (quantity : ℚ)
  if side = Side.BUY ∧ pf.cash < orderValue then false
  else
    let currentQty : ℤ := ((pf.om.getPosition symbol).map Position.quantity).getD 0
    let newQty : ℤ := match side with
      | Side.BUY => currentQty + quantity
      | Side.SELL => currentQty - quantity
    let newPositionValue := |(newQty : ℚ) * price|
    if pf.maxPositionSize < newPositionValue then false
    else
      let currentExposure := exposureLoop pf.om.getAllPositions symbol marketPrices
      if pf.maxPortfolioExposure < currentExposure + newPositionValue then false
      else true

/-- `Portfolio::submitOrder`: run the risk check; on failure return
`false` with the state untouched and nothing published; on success
delegate to `OrderManager::submitOrder` and return `true` together
with the published `PENDING_NEW` event. -/
def submitOrder (pf : PortfolioState) (orderId symbol : String) (side : Side)
    (type : OrderType) (price : ℚ) (quantity : ℤ)
    (marketPrices : List (String × ℚ)) :
    Bool × PortfolioState × List OrderEventData :=
  if ¬ preTradeRiskCheck pf symbol side price quantity marketPrices then
    (false, pf, [])
  else
    let (om', ev) := pf.om.submitOrder orderId symbol side type price quantity
    (true, { pf with om := om' }, [ev])

/-- `Portfolio::onFillEvent` from `risk/Portfolio.cpp`: BUY debits
cash by `price × qty`, SELL credits it. -/
def onFillEvent (pf : PortfolioState) (f : FillEvent) : PortfolioState :=
  let tradeValue := f.fillPrice * (f.fillQuantity : ℚ)
  match f.side with
  | Side.BUY => { pf with cash := pf.cash - tradeValue }
  | Side.SELL => { pf with cash := pf.cash + tradeValue }

/-- One Fill event on the bus reaches both the Portfolio's cash
handler and its OrderManager's fill handler. -/
def deliverFill (pf : PortfolioState) (f : FillEvent) : PortfolioState :=
  { pf.onFillEvent f with om := pf.om.onFillEvent f }

/-- Deliver a sequence of Fill events to the Portfolio, in order. -/
def deliverFills (pf : PortfolioState) (fills : List FillEvent) : PortfolioState :=
  fills.foldl deliverFill pf

end PortfolioState

/-- The spec's `Σ(BUY price×qty)`: sum of `price × qty` over the BUY
fills of a sequence. -/
def buyNotional (fills : List FillEvent) : ℚ :=
  ((fills.filter (fun f => f.side = Side.BUY)).map
    (fun f => f.fillPrice * (f.fillQuantity : ℚ))).sum

/-- The spec's `Σ(SELL price×qty)`: sum of `price × qty` over the SELL
fills of a sequence. -/
def sellNotional (fills : List FillEvent) : ℚ :=
  ((fills.filter (fun f => f.side = Side.SELL)).map
    (fun f => f.fillPrice * (f.fillQuantity : ℚ))).sum

/-- A subscription entry of `EventBus` (`event/EventBus.h`,
`SubscriptionPair`): the subscription id plus the handler, which is
modelled as an opaque tag so that an invocation can be recorded. -/
structure Subscription where
  id : ℕ
  handler : ℕ
deriving DecidableEq, Repr

/-- State of `EventBus`: `subscribers_`, `nextSubscriptionId_`, the
deferred `eventQueue_` (only the type tag of a queued event matters for
dispatch), and `eventCount_`. -/
structure BusState where
  subscribers : List (EventType × List Subscription)
  nextSubscriptionId : ℕ
  queue : List EventType
  eventCount : ℕ
deriving DecidableEq, Repr

namespace BusState

/-- The handler tags registered for a category, in subscription
order (the snapshot `publish` copies out under the lock). -/
def handlersFor (subs : List (EventType × List Subscription)) (t : EventType) : List ℕ :=
  ((lookupKey t subs).getD []).map Subscription.handler

/-- `EventBus::subscribe`. -/
def subscribe (st : BusState) (t : EventType) (handler : ℕ) : ℕ × BusState :=
  (st.nextSubscriptionId,
   { st with
     subscribers := updateKey t (((lookupKey t st.subscribers).getD []) ++
       [⟨st.nextSubscriptionId, handler⟩]) st.subscribers
     nextSubscriptionId := st.nextSubscriptionId + 1 })

/-- `EventBus::unsubscribe`: remove the id from every category. -/
def unsubscribe (st : BusState) (subscriptionId : ℕ) : BusState :=
  { st with
    subscribers := st.subscribers.map
      (fun p => (p.1, p.2.filter (fun s => s.id ≠ subscriptionId))) }

/-- `EventBus::enqueue`. -/
def enqueue (st : BusState) (t : EventType) : BusState :=
  { st with queue := st.queue ++ [t] }

/-- `EventBus::publish`: snapshot the handlers of the event's
category, bump `eventCount_`, then invoke the snapshot. The result is
the list of invoked handler tags together with the new state. -/
def publish (st : BusState) (t : EventType) : List ℕ × BusState :=
  (handlersFor st.subscribers t, { st with eventCount := st.eventCount + 1 })

/-- The drain loop of `EventBus::processQueue`: pop events while the
queue is non-empty and fewer than `maxEvents` have been processed
(`maxEvents = 0` means no limit), dispatching each to the handlers of
its category. Returns the per-event invocation lists and the leftover
queue. -/
def processQueueLoop (subs : List (EventType × List Subscription)) :
    List EventType → ℕ → ℕ → List (List ℕ) × List EventType
  | [], _, _ => ([], [])
  | t :: rest, maxEvents, processed =>
    if maxEvents = 0 ∨ processed < maxEvents then
      let (invs, leftover) := processQueueLoop subs rest maxEvents (processed + 1)
      (handlersFor subs t :: invs, leftover)
    else ([], t :: rest)

/-- `EventBus::processQueue`: drain the queue through
`processQueueLoop`. Note that, unlike `publish`, it does not touch
`eventCount_`. -/
def processQueue (st : BusState) (maxEvents : ℕ) : List (List ℕ) × BusState :=
  let (invs, leftover) := processQueueLoop st.subscribers st.queue maxEvents 0
  (invs, { st with queue := leftover })

end BusState

/-- A handler together with its behaviour for the exception model of
`EventBus::publish`: `throws = true` means invoking it raises. -/
structure ThrowHandler where
  tag : ℕ
  throws : Bool
deriving DecidableEq, Repr

/-- The dispatch loop of `EventBus::publish` over the copied handler
list: `handler(event)` is invoked for each handler in turn with no
try/catch around the call, so the first handler that throws aborts the
loop and the exception propagates out of `publish`. Returns the
invoked tags and whether an exception escaped. -/
def runHandlers : List ThrowHandler → List ℕ × Bool
  | [] => ([], false)
  | h :: rest =>
    if h.throws then ([h.tag], true)
    else
      let (tags, threw) := runHandlers rest
      (h.tag :: tags, threw)

/-- `EventBus::publish` in the exception model: dispatch the snapshot
of the category's handler list through `runHandlers`. -/
def publishWithExceptions (subscribers : List (EventType × List ThrowHandler))
    (t : EventType) : List ℕ × Bool :=
  runHandlers ((lookupKey t subscribers).getD [])

/-- `SimulatedExchange::Config` (`exchange/SimulatedExchange.h`). -/
structure ExchConfig where
  fillLatencyMs : ℤ
  rejectionRate : ℚ
  partialFillRate : ℚ
  slippageBps : ℚ
  instantFills : Bool
deriving DecidableEq, Repr

/-- `PendingOrder` from `exchange/SimulatedExchange.h`. -/
structure PendingOrder where
  orderId : String
  symbol : String
  side : Side
  type : OrderType
  price : ℚ
  quantity : ℤ
deriving DecidableEq, Repr

/-- An event published by the simulated exchange. -/
inductive ExchEvent where
  | order (e : OrderEventData)
  | fill (f : FillEvent)
deriving DecidableEq, Repr

/-- Whether an exchange event is an Order event with status
`CANCELLED`. -/
def ExchEvent.isCancelled : ExchEvent → Bool
  | .order e => e.status = OrderStatus.CANCELLED
  | .fill _ => false

/-- Whether an exchange event is a Fill event. -/
def ExchEvent.isFill : ExchEvent → Bool
  | .order _ => false
  | .fill _ => true

/-- The fill quantities of the Fill events in a trace, in order. -/
def fillQuantities (trace : List ExchEvent) : List ℤ :=
  trace.foldr (fun e acc => match e with
    | .fill f => f.fillQuantity :: acc
    | .order _ => acc) []

/-- The fill prices of the Fill events in a trace, in order. -/
def fillPrices (trace : List ExchEvent) : List ℚ :=
  trace.foldr (fun e acc => match e with
    | .fill f => f.fillPrice :: acc
    | .order _ => acc) []

/-- `static_cast<int64_t>` on a `double`: truncation toward zero. -/
def ratTrunc (x : ℚ) : ℤ :=
  if 0 ≤ x then ⌊x⌋ else ⌈x⌉

/-- `SimulatedExchange::shouldReject`: `false` when the rate is ≤ 0,
otherwise compare the uniform-[0,1) draw against the rate. -/
def shouldReject (rejectionRate u : ℚ) : Bool :=
  if rejectionRate ≤ 0 then false else u < rejectionRate

/-- `SimulatedExchange::shouldPartialFill`, same shape. -/
def shouldPartialFill (partialFillRate u : ℚ) : Bool :=
  if partialFillRate ≤ 0 then false else u < partialFillRate

/-- `SimulatedExchange::applySlippage`: base price is the stored
market price when present (the order price otherwise); BUY pays
`base × (1 + bps/10000)`, SELL receives `base × (1 − bps/10000)`. -/
def applySlippage (config : ExchConfig) (marketPrices : List (String × ℚ))
    (symbol : String) (side : Side) (price : ℚ) : ℚ :=
  let basePrice := (lookupKey symbol marketPrices).getD price
  let slippageFactor := config.slippageBps / 10000
  match side with
  | Side.BUY => basePrice * (1 + slippageFactor)
  | Side.SELL => basePrice * (1 - slippageFactor)

/-- `SimulatedExchange::processFill`, as the trace of events it
publishes. The two random draws are parameters: `uPartial` is the
uniform-[0,1) draw of `shouldPartialFill`, `uFrac` the uniform-[0.5,0.9)
fraction of a partial fill. `runningAtRemainder` is the value the
`isRunning_` flag has when it is checked before the remainder fill. -/
def processFill (config : ExchConfig) (marketPrices : List (String × ℚ))
    (runningAtRemainder : Bool) (uPartial uFrac : ℚ)
    (orderId symbol : String) (side : Side) (type : OrderType)
    (price : ℚ) (quantity : ℤ) : List ExchEvent :=
  let fillPrice :=
    if type = OrderType.MARKET then applySlippage config marketPrices symbol side price
    else price
  let fillQty :=
    if shouldPartialFill config.partialFillRate uPartial then
      max (ratTrunc ((quantity : ℚ) * uFrac)) 1
    else quantity
  [ExchEvent.fill (FillEvent.mk orderId symbol side fillPrice fillQty "")] ++
  (if fillQty < quantity then
    [ExchEvent.order (OrderEventData.mk orderId symbol side type
      OrderStatus.PARTIALLY_FILLED price quantity fillQty "")] ++
    (if runningAtRemainder then
      [ExchEvent.fill (FillEvent.mk orderId symbol side fillPrice (quantity - fillQty) "")]
    else [])
  else []) ++
  [ExchEvent.order (OrderEventData.mk orderId symbol side type
    OrderStatus.FILLED price quantity quantity "")]

/-- `SimulatedExchange::submitOrder`, as the trace of events it
publishes. `uReject` is the rejection draw; `runningAtFill` is the
value `isRunning_` has when the delayed-fill thread wakes up (it is
irrelevant when `instantFills` is set, because the instant path calls
`processFill` unconditionally). -/
def exchSubmitOrder (config : ExchConfig) (marketPrices : List (String × ℚ))
    (runningAtFill runningAtRemainder : Bool) (uReject uPartial uFrac : ℚ)
    (orderId symbol : String) (side : Side) (type : OrderType)
    (price : ℚ) (quantity : ℤ) : List ExchEvent :=
  if shouldReject config.rejectionRate uReject then
    [ExchEvent.order (OrderEventData.mk orderId symbol side type
      OrderStatus.REJECTED price quantity 0 "")]
  else
    [ExchEvent.order (OrderEventData.mk orderId symbol side type
      OrderStatus.NEW price quantity 0 "")] ++
    (if config.instantFills then
      processFill config marketPrices runningAtRemainder uPartial uFrac
        orderId symbol side type price quantity
    else if runningAtFill then
      processFill config marketPrices runningAtRemainder uPartial uFrac
        orderId symbol side type price quantity
    else [])

/-- State of `SimulatedExchange`: the running flag, the
`pendingOrders_` and `marketPrices_` maps, and the configuration. -/
structure ExchState where
  isRunning : Bool
  pendingOrders : List (String × PendingOrder)
  marketPrices : List (String × ℚ)
  config : ExchConfig
deriving DecidableEq, Repr

/-- A freshly constructed `SimulatedExchange`. -/
def ExchState.init (config : ExchConfig) : ExchState :=
  { isRunning := false, pendingOrders := [], marketPrices := [], config := config }

/-- `SimulatedExchange::cancelOrder`: publish `CANCELLED` and erase
the entry when the id is in `pendingOrders_`; otherwise do nothing. -/
def exchCancelOrder (st : ExchState) (orderId : String) : ExchState × List ExchEvent :=
  match lookupKey orderId st.pendingOrders with
  | some po =>
    ({ st with pendingOrders := eraseKey orderId st.pendingOrders },
     [ExchEvent.order (OrderEventData.mk po.orderId po.symbol po.side po.type
       OrderStatus.CANCELLED po.price po.quantity 0 "")])
  | none => (st, [])

/-- The operations that can reach a `SimulatedExchange` from outside:
lifecycle calls, configuration, market-price updates, and Order events
arriving through the bus subscription (with the random draws and the
scheduling of the detached fill thread as explicit parameters). -/
inductive ExchOp where
  | start
  | stop
  | setMarketPrice (symbol : String) (price : ℚ)
  | setConfig (config : ExchConfig)
  | submit (orderId symbol : String) (side : Side) (type : OrderType)
      (price : ℚ) (quantity : ℤ) (uReject uPartial uFrac : ℚ)
      (runningAtFill runningAtRemainder : Bool)
  | cancel (orderId : String)
  | orderEvent (e : OrderEventData) (uReject uPartial uFrac : ℚ)
      (runningAtFill runningAtRemainder : Bool)

/-- One step of the exchange: the state after the operation and the
events it publishes. `onOrderEvent` routes `PENDING_NEW` to
`submitOrder` and `PENDING_CANCEL` to `cancelOrder`. -/
def exchStep (st : ExchState) : ExchOp → ExchState × List ExchEvent
  | ExchOp.start => ({ st with isRunning := true }, [])
  | ExchOp.stop => ({ st with isRunning := false }, [])
  | ExchOp.setMarketPrice symbol price =>
    ({ st with marketPrices := updateKey symbol price st.marketPrices }, [])
  | ExchOp.setConfig config => ({ st with config := config }, [])
  | ExchOp.submit orderId symbol side type price quantity uReject uPartial uFrac rf rr =>
    (st, exchSubmitOrder st.config st.marketPrices rf rr uReject uPartial uFrac
      orderId symbol side type price quantity)
  | ExchOp.cancel orderId => exchCancelOrder st orderId
  | ExchOp.orderEvent e uReject uPartial uFrac rf rr =>
    if e.status = OrderStatus.PENDING_NEW then
      (st, exchSubmitOrder st.config st.marketPrices rf rr uReject uPartial uFrac
        e.orderId e.symbol e.side e.type e.price e.quantity)
    else if e.status = OrderStatus.PENDING_CANCEL then
      exchCancelOrder st e.orderId
    else (st, [])

/-- Run a sequence of operations from a state, accumulating the
published trace. -/
def exchRun (st : ExchState) : List ExchOp → ExchState × List ExchEvent
  | [] => (st, [])
  | op :: rest =>
    ((exchRun (exchStep st op).1 rest).1,
      (exchStep st op).2 ++ (exchRun (exchStep st op).1 rest).2)

/-- Spec phrasing for the risk check: the signed position quantity the
portfolio would hold in `symbol` after the order (step 3–4 of the
spec's pre-trade check). -/
def specProspectiveQty (pf : PortfolioState) (symbol : String) (side : Side)
    (quantity : ℤ) : ℤ :=
  let currentQty : ℤ := ((pf.om.getPosition symbol).map Position.quantity).getD 0
  match side with
  | Side.BUY => currentQty + quantity
  | Side.SELL => currentQty - quantity

/-- Spec phrasing for the risk check: `Σ` over all *other* non-flat
symbols of `|position.qty| × mark_price`, ignoring symbols without a
mark price (step 7 of the spec's pre-trade check). -/
def specOtherExposure (pf : PortfolioState) (symbol : String)
    (marketPrices : List (String × ℚ)) : ℚ :=
  ((pf.om.getAllPositions.filter (fun p => p.symbol ≠ symbol)).map
    (fun p =>
      match lookupKey p.symbol marketPrices with
      | some mp => |(p.quantity : ℚ)| * mp
      | none => 0)).sum

/-- A portfolio used to probe the risk check at a negative limit
price: cash 100, position cap 2, exposure cap 1000, empty
OrderManager. -/
def negPricePortfolio : PortfolioState :=
  { initialCapital := 100, cash := 100, om := OMState.empty,
    maxPositionSize := 2, maxPortfolioExposure := 1000 }

/-- A portfolio holding 200 AAPL at average price 150, with a
position cap of 100000 and an exposure cap of 50000 (the spec's
exposure-cap scenario). -/
def exposurePortfolio : PortfolioState :=
  { initialCapital := 100000, cash := 70000,
    om := { orders := [],
            positions := [("AAPL",
              { symbol := "AAPL", quantity := 200, averagePrice := 150, realizedPnL := 0 })] },
    maxPositionSize := 100000, maxPortfolioExposure := 50000 }

/-- A bus holding one subscriber on FILL and one queued FILL event,
with the processed-event counter at zero. -/
def oneQueuedFillBus : BusState :=
  { subscribers := [(EventType.FILL, [⟨1, 7⟩])], nextSubscriptionId := 2,
    queue := [EventType.FILL], eventCount := 0 }

/-! ## Helper lemmas -/

theorem lookupKey_updateKey_self {κ α : Type} [DecidableEq κ] (k : κ) (v : α)
    (l : List (κ × α)) : lookupKey k (updateKey k v l) = some v := by
  induction l with
  | nil => simp [lookupKey, updateKey]
  | cons hd tl ih =>
    obtain ⟨k', v'⟩ := hd
    by_cases h : k' = k
    · simp [lookupKey, updateKey, h]
    · simp [lookupKey, updateKey, h, ih]

theorem lookupKey_mem_snd {κ α : Type} [DecidableEq κ] (k : κ) (v : α)
    (l : List (κ × α)) (h : lookupKey k l = some v) : v ∈ l.map Prod.snd := by
  induction l with
  | nil => simp [lookupKey] at h
  | cons hd tl ih =>
    obtain ⟨k', v'⟩ := hd
    by_cases hk : k' = k
    · simp [lookupKey, hk] at h
      simp [h]
    · simp [lookupKey, hk] at h
      simp [ih h]

/-! ## C2: Position.applyFill on a closing/flipping fill -/

/-- C2: applied against a non-zero position of opposite sign with a
positive fill quantity, `Position::applyFill` adds
`closed × (fill_price − avg)` to realized P&L for a long position
(`closed × (avg − fill_price)` for a short), with
`closed = min(fill qty, |position qty|)`; it adds the signed fill
quantity to the position quantity; and it sets the average price to the
fill price exactly when the position flips sign (i.e. when the fill
quantity strictly exceeds `|position qty|`), leaving it unchanged
otherwise. -/
theorem position_applyFill_closing (p : Position) (side : Side) (q : ℤ) (price : ℚ)
    (hq : 0 < q)
    (hopp : (0 < p.quantity ∧ side = Side.SELL) ∨ (p.quantity < 0 ∧ side = Side.BUY)) :
    (0 < p.quantity →
      (p.applyFill side q price).realizedPnL =
        p.realizedPnL + ((min q |p.quantity| : ℤ) : ℚ) * (price - p.averagePrice)) ∧
    (p.quantity < 0 →
      (p.applyFill side q price).realizedPnL =
        p.realizedPnL + ((min q |p.quantity| : ℤ) : ℚ) * (p.averagePrice - price)) ∧
    (side = Side.SELL → (p.applyFill side q price).quantity = p.quantity - q) ∧
    (side = Side.BUY → (p.applyFill side q price).quantity = p.quantity + q) ∧
    (p.applyFill side q price).averagePrice =
      (if |p.quantity| < q then price else p.averagePrice) := by
  obtain ⟨hpos, rfl⟩ | ⟨hneg, rfl⟩ := hopp
  · have habs : |p.quantity| = p.quantity := abs_of_pos hpos
    have habsq : |(-q : ℤ)| = q := by rw [abs_neg, abs_of_pos hq]
    simp only [Position.applyFill, habs, habsq]
    split_ifs with h1 h2 h3 h4 h5 h6 <;>
      refine ⟨fun _ => ?_, fun h => absurd h (by omega), fun _ => ?_,
        fun h => h.elim, ?_⟩ <;> simp <;> omega
  · have habs : |p.quantity| = -p.quantity := abs_of_neg hneg
    have habsq : |(q : ℤ)| = q := abs_of_pos hq
    simp only [Position.applyFill, habs, habsq]
    split_ifs with h1 h2 h3 h4 h5 h6 <;>
      refine ⟨fun h => absurd h (by omega), fun _ => ?_,
        fun h => h.elim, fun _ => ?_, ?_⟩ <;> simp <;> omega

/-- Witness for C2: the spec's position-flip scenario. Buy 100 @ 100
then Sell 150 @ 110 ends with quantity −50, average price 110 and
realized P&L 1000. -/
theorem position_applyFill_closing_witness :
    (0 : ℤ) < 150 ∧
    (((Position.init "AAPL").applyFill Side.BUY 100 100).applyFill Side.SELL 150 110).realizedPnL
      = 1000 ∧
    (((Position.init "AAPL").applyFill Side.BUY 100 100).applyFill Side.SELL 150 110).quantity
      = -50 ∧
    (((Position.init "AAPL").applyFill Side.BUY 100 100).applyFill Side.SELL 150 110).averagePrice
      = 110 := by
  have hp1 : (Position.init "AAPL").applyFill Side.BUY 100 100 =
      { symbol := "AAPL", quantity := 100, averagePrice := 100, realizedPnL := 0 } := by
    norm_num [Position.applyFill, Position.init]
  have h := position_applyFill_closing ((Position.init "AAPL").applyFill Side.BUY 100 100)
    Side.SELL 150 110 (by norm_num) (Or.inl ⟨by rw [hp1]; norm_num, rfl⟩)
  obtain ⟨h1, -, h3, -, h5⟩ := h
  refine ⟨by norm_num, ?_, ?_, ?_⟩
  · rw [h1 (by rw [hp1]; norm_num), hp1]
    norm_num
  · rw [h3 rfl, hp1]
    norm_num
  · rw [h5, hp1]
    norm_num

theorem Order.applyFill_quantity (o : Order) (q : ℤ) (pr : ℚ) :
    (o.applyFill q pr).quantity = o.quantity := rfl

theorem Order.applyFill_filledQuantity (o : Order) (q : ℤ) (pr : ℚ) :
    (o.applyFill q pr).filledQuantity = o.filledQuantity + q := rfl

theorem getOrder_onFillEvent_self (st : OMState) (f : FillEvent) (o : Order)
    (ho : st.getOrder f.orderId = some o) :
    (st.onFillEvent f).getOrder f.orderId =
      some (o.applyFill f.fillQuantity f.fillPrice) := by
  unfold OMState.getOrder at ho ⊢
  unfold OMState.onFillEvent
  simp only [ho]
  exact lookupKey_updateKey_self _ _ _

theorem deliverFills_getOrder_spec (st : OMState) (oid : String) (o : Order)
    (fills : List FillEvent)
    (ho : st.getOrder oid = some o)
    (hid : ∀ f ∈ fills, f.orderId = oid)
    (hnn : ∀ f ∈ fills, 0 ≤ f.fillQuantity)
    (hinv : o.status = OrderStatus.FILLED → o.quantity ≤ o.filledQuantity) :
    ∃ o' : Order, (st.deliverFills fills).getOrder oid = some o' ∧
      o'.quantity = o.quantity ∧
      o'.filledQuantity = o.filledQuantity + (fills.map FillEvent.fillQuantity).sum ∧
      (o'.status = OrderStatus.FILLED → o'.quantity ≤ o'.filledQuantity) := by
  induction fills generalizing st o with
  | nil =>
    refine ⟨o, by simpa [OMState.deliverFills] using ho, rfl, by simp, ?_⟩
    intro h
    exact hinv h
  | cons f rest ih =>
    have hid0 : f.orderId = oid := hid f (by simp)
    have hnn0 : 0 ≤ f.fillQuantity := hnn f (by simp)
    have hstep : (st.onFillEvent f).getOrder oid =
        some (o.applyFill f.fillQuantity f.fillPrice) := by
      subst hid0
      exact getOrder_onFillEvent_self st f o ho
    have hinv' : (o.applyFill f.fillQuantity f.fillPrice).status = OrderStatus.FILLED →
        (o.applyFill f.fillQuantity f.fillPrice).quantity ≤
          (o.applyFill f.fillQuantity f.fillPrice).filledQuantity := by
      simp only [Order.applyFill]
      split_ifs with h1 h2
      · exact fun _ => h1
      · exact fun hF => absurd hF (by decide)
      · exact fun hF => by have := hinv hF; omega
    obtain ⟨o', h1, h2, h3, h4⟩ := ih (st.onFillEvent f)
      (o.applyFill f.fillQuantity f.fillPrice) hstep
      (fun g hg => hid g (by simp [hg])) (fun g hg => hnn g (by simp [hg])) hinv'
    refine ⟨o', by simpa [OMState.deliverFills] using h1, ?_, ?_, h4⟩
    · rw [h2, Order.applyFill_quantity]
    · rw [h3, Order.applyFill_filledQuantity]
      simp
      omega

/-- C1 counterexample: an order for 100 shares receiving a single Fill
of 150 ends with `filled = 150 > quantity = 100` and status `FILLED`
with `filled ≠ quantity`: `Order::applyFill` does not clamp the fill
quantity to the remaining quantity. -/
theorem orderManager_fill_overshoot_cex :
    (OMState.deliverFills
        (OMState.empty.submitOrder "O1" "AAPL" Side.BUY OrderType.LIMIT 150 100).1
        [FillEvent.mk "O1" "AAPL" Side.BUY 150 150 ""]).getOrder "O1" =
      some { orderId := "O1", symbol := "AAPL", side := Side.BUY, type := OrderType.LIMIT,
             status := OrderStatus.FILLED, limitPrice := 150, quantity := 100,
             filledQuantity := 150, averageFillPrice := 150, rejectReason := "" } ∧
    ¬ ((150 : ℤ) ≤ 100) := by
  constructor
  · norm_num [OMState.deliverFills, OMState.onFillEvent, OMState.submitOrder,
      OMState.getOrder, OMState.empty, Order.init, Order.applyFill,
      Position.init, Position.applyFill, lookupKey, updateKey]
  · norm_num

/-- C1 (amended): for every order tracked by the OrderManager and
every sequence of Fill events with non-negative quantities carrying
that order's id, the order's filled quantity is non-decreasing and
equals its initial filled quantity plus the sum of the delivered fill
quantities; it never exceeds the order's total quantity provided that
sum does not exceed the remaining quantity (the code does not clamp an
overshooting fill); and whenever the status is FILLED the filled
quantity is at least the total quantity (equality whenever there is no
overshoot). -/
theorem orderManager_fill_accounting (st : OMState) (oid : String) (o : Order)
    (fills : List FillEvent)
    (ho : st.getOrder oid = some o)
    (hid : ∀ f ∈ fills, f.orderId = oid)
    (hnn : ∀ f ∈ fills, 0 ≤ f.fillQuantity)
    (hinv : o.status = OrderStatus.FILLED → o.quantity ≤ o.filledQuantity) :
    ∃ o' : Order, (st.deliverFills fills).getOrder oid = some o' ∧
      o'.quantity = o.quantity ∧
      o'.filledQuantity = o.filledQuantity + (fills.map FillEvent.fillQuantity).sum ∧
      o.filledQuantity ≤ o'.filledQuantity ∧
      ((fills.map FillEvent.fillQuantity).sum ≤ o.quantity - o.filledQuantity →
        o'.filledQuantity ≤ o.quantity) ∧
      (o'.status = OrderStatus.FILLED → o.quantity ≤ o'.filledQuantity) := by
  obtain ⟨o', h1, h2, h3, h4⟩ := deliverFills_getOrder_spec st oid o fills ho hid hnn hinv
  have hsum : 0 ≤ (fills.map FillEvent.fillQuantity).sum := by
    apply List.sum_nonneg
    intro x hx
    rw [List.mem_map] at hx
    obtain ⟨g, hg, rfl⟩ := hx
    exact hnn g hg
  refine ⟨o', h1, h2, h3, by omega, fun hle => by omega, fun hF => ?_⟩
  have := h4 hF
  omega

/-- Witness for C1 (amended): a fresh order for 100 shares receiving
fills of 60 and 40 ends exactly filled. -/
theorem orderManager_fill_accounting_witness :
    (0 : ℤ) ≤ 60 ∧ (0 : ℤ) ≤ 40 ∧
    ∃ o' : Order,
      (OMState.deliverFills
          (OMState.empty.submitOrder "O1" "AAPL" Side.BUY OrderType.LIMIT 150 100).1
          [FillEvent.mk "O1" "AAPL" Side.BUY 150 60 "",
           FillEvent.mk "O1" "AAPL" Side.BUY 150 40 ""]).getOrder "O1" = some o' ∧
      o'.filledQuantity = 100 ∧ o'.quantity = 100 := by
  refine ⟨by norm_num, by norm_num, ?_⟩
  have ho : ((OMState.empty.submitOrder "O1" "AAPL" Side.BUY OrderType.LIMIT 150 100).1).getOrder "O1" =
      some (Order.init "O1" "AAPL" Side.BUY OrderType.LIMIT 150 100) := by
    norm_num [OMState.submitOrder, OMState.empty, OMState.getOrder, lookupKey, updateKey]
  obtain ⟨o', h1, h2, h3, -⟩ := orderManager_fill_accounting _ "O1" _
    [FillEvent.mk "O1" "AAPL" Side.BUY 150 60 "", FillEvent.mk "O1" "AAPL" Side.BUY 150 40 ""] ho
    (by intro f hf; simp only [List.mem_cons, List.not_mem_nil, or_false] at hf; rcases hf with rfl | rfl <;> rfl)
    (by intro f hf; simp only [List.mem_cons, List.not_mem_nil, or_false] at hf; rcases hf with rfl | rfl <;> norm_num)
    (by intro h; simp [Order.init] at h)
  refine ⟨o', h1, ?_, ?_⟩
  · rw [h3]
    simp [Order.init]
  · rw [h2]
    simp [Order.init]

theorem buyNotional_cons (f : FillEvent) (fills : List FillEvent) :
    buyNotional (f :: fills) =
      (if f.side = Side.BUY then f.fillPrice * (f.fillQuantity : ℚ) else 0) +
        buyNotional fills := by
  by_cases hs : f.side = Side.BUY <;>
    simp [buyNotional, List.filter_cons, hs]

theorem sellNotional_cons (f : FillEvent) (fills : List FillEvent) :
    sellNotional (f :: fills) =
      (if f.side = Side.SELL then f.fillPrice * (f.fillQuantity : ℚ) else 0) +
        sellNotional fills := by
  by_cases hs : f.side = Side.SELL <;>
    simp [sellNotional, List.filter_cons, hs]

/-- C3: after any sequence of Fill events delivered to a Portfolio
constructed with `initial_capital`, the cash balance equals
`initial_capital − Σ(BUY price×qty) + Σ(SELL price×qty)`. -/
theorem portfolio_cash_conservation (initialCapital : ℚ) (fills : List FillEvent) :
    ((PortfolioState.init initialCapital).deliverFills fills).cash =
      initialCapital - buyNotional fills + sellNotional fills := by
  have key : ∀ (fs : List FillEvent) (pf : PortfolioState),
      (pf.deliverFills fs).cash = pf.cash - buyNotional fs + sellNotional fs := by
    intro fs
    induction fs with
    | nil =>
      intro pf
      simp [PortfolioState.deliverFills, buyNotional, sellNotional]
    | cons f rest ih =>
      intro pf
      have h : ((pf.deliverFill f).deliverFills rest).cash =
          (pf.deliverFill f).cash - buyNotional rest + sellNotional rest := ih _
      have hfoldl : pf.deliverFills (f :: rest) = (pf.deliverFill f).deliverFills rest := rfl
      rw [hfoldl, h, buyNotional_cons, sellNotional_cons]
      cases hside : f.side with
      | BUY =>
        simp [PortfolioState.deliverFill, PortfolioState.onFillEvent, hside]
        ring
      | SELL =>
        simp [PortfolioState.deliverFill, PortfolioState.onFillEvent, hside]
        ring
  simpa [PortfolioState.init] using key fills (PortfolioState.init initialCapital)

/-- C5: whenever `Portfolio::submitOrder` returns false, no Order
event is published, the cash balance is unchanged, and no order record
is created: the whole Portfolio/OrderManager state is exactly as
before the call. -/
theorem portfolio_reject_no_side_effects (pf : PortfolioState) (orderId symbol : String)
    (side : Side) (type : OrderType) (price : ℚ) (quantity : ℤ)
    (marketPrices : List (String × ℚ))
    (h : (pf.submitOrder orderId symbol side type price quantity marketPrices).1 = false) :
    (pf.submitOrder orderId symbol side type price quantity marketPrices).2.1 = pf ∧
    (pf.submitOrder orderId symbol side type price quantity marketPrices).2.2 = [] := by
  unfold PortfolioState.submitOrder at h ⊢
  split_ifs at h ⊢ with hc
  exact ⟨rfl, rfl⟩

/-- Witness for C5: the spec's rejection-by-cash scenario — a
Portfolio with capital 10000 rejects BUY 100 @ 150 and is left
untouched. -/
theorem portfolio_reject_no_side_effects_witness :
    ((PortfolioState.init 10000).submitOrder "O1" "AAPL" Side.BUY OrderType.LIMIT
        150 100 []).1 = false ∧
    ((PortfolioState.init 10000).submitOrder "O1" "AAPL" Side.BUY OrderType.LIMIT
        150 100 []).2.1 = PortfolioState.init 10000 ∧
    ((PortfolioState.init 10000).submitOrder "O1" "AAPL" Side.BUY OrderType.LIMIT
        150 100 []).2.2 = [] := by
  have hrej : ((PortfolioState.init 10000).submitOrder "O1" "AAPL" Side.BUY OrderType.LIMIT
      150 100 []).1 = false := by
    norm_num [PortfolioState.submitOrder, PortfolioState.preTradeRiskCheck,
      PortfolioState.init, OMState.getPosition, OMState.empty, lookupKey]
  have h := portfolio_reject_no_side_effects _ _ _ _ _ _ _ _ hrej
  exact ⟨hrej, h.1, h.2⟩

theorem exposureLoop_eq_sum (positions : List Position) (symbol : String)
    (marketPrices : List (String × ℚ)) :
    PortfolioState.exposureLoop positions symbol marketPrices =
      (positions.map (fun p =>
        if p.symbol = symbol then 0
        else
          match lookupKey p.symbol marketPrices with
          | some mp => |(p.quantity : ℚ) * mp|
          | none => 0)).sum := by
  have key : ∀ (l : List Position) (acc : ℚ),
      l.foldl (fun acc pos =>
        if pos.symbol = symbol then acc
        else
          match lookupKey pos.symbol marketPrices with
          | some mp => acc + |(pos.quantity : ℚ) * mp|
          | none => acc) acc =
      acc + (l.map (fun p =>
        if p.symbol = symbol then 0
        else
          match lookupKey p.symbol marketPrices with
          | some mp => |(p.quantity : ℚ) * mp|
          | none => 0)).sum := by
    intro l
    induction l with
    | nil => intro acc; simp
    | cons p rest ih =>
      intro acc
      by_cases hs : p.symbol = symbol
      · simp only [List.foldl_cons, List.map_cons, List.sum_cons, if_pos hs]
        rw [ih]
        ring
      · rcases hmp : lookupKey p.symbol marketPrices with - | mp
        · simp only [List.foldl_cons, List.map_cons, List.sum_cons, if_neg hs, hmp]
          rw [ih]
          ring
        · simp only [List.foldl_cons, List.map_cons, List.sum_cons, if_neg hs, hmp]
          rw [ih]
          ring
  exact key positions 0 |>.trans (zero_add _)

theorem exposure_sum_eq_spec (pf : PortfolioState) (symbol : String)
    (marketPrices : List (String × ℚ))
    (hm : ∀ mp ∈ marketPrices.map Prod.snd, 0 ≤ mp) :
    PortfolioState.exposureLoop pf.om.getAllPositions symbol marketPrices =
      specOtherExposure pf symbol marketPrices := by
  rw [exposureLoop_eq_sum]
  unfold specOtherExposure
  generalize pf.om.getAllPositions = l
  induction l with
  | nil => simp
  | cons p rest ih =>
    by_cases hs : p.symbol = symbol
    · simp only [List.map_cons, List.sum_cons, if_pos hs, List.filter_cons]
      simp [hs, ih]
    · rcases hmp : lookupKey p.symbol marketPrices with - | mp
      · simp only [List.map_cons, List.sum_cons, if_neg hs, hmp, List.filter_cons]
        simp [hs, hmp, ih]
      · have hmp0 : 0 ≤ mp := hm mp (lookupKey_mem_snd _ _ _ hmp)
        have habs : |(p.quantity : ℚ) * mp| = |(p.quantity : ℚ)| * mp := by
          rw [abs_mul, abs_of_nonneg hmp0]
        simp only [List.map_cons, List.sum_cons, if_neg hs, hmp, List.filter_cons]
        simp [hs, hmp, ih, habs]

theorem preTradeRiskCheck_false_iff (pf : PortfolioState) (symbol : String)
    (side : Side) (price : ℚ) (quantity : ℤ) (marketPrices : List (String × ℚ))
    (hp : 0 ≤ price) (hm : ∀ mp ∈ marketPrices.map Prod.snd, 0 ≤ mp) :
    pf.preTradeRiskCheck symbol side price quantity marketPrices = false ↔
      ((side = Side.BUY ∧ pf.cash < price * (quantity : ℚ)) ∨
        pf.maxPositionSize < |(specProspectiveQty pf symbol side quantity : ℚ)| * price ∨
        pf.maxPortfolioExposure <
          specOtherExposure pf symbol marketPrices +
            |(specProspectiveQty pf symbol side quantity : ℚ)| * price) := by
  have habs : |(specProspectiveQty pf symbol side quantity : ℚ) * price| =
      |(specProspectiveQty pf symbol side quantity : ℚ)| * price := by
    rw [abs_mul, abs_of_nonneg hp]
  have hexp := exposure_sum_eq_spec pf symbol marketPrices hm
  unfold PortfolioState.preTradeRiskCheck
  dsimp only
  split_ifs with hA hB hC
  · exact iff_of_true rfl (Or.inl hA)
  · refine iff_of_true rfl (Or.inr (Or.inl ?_))
    rw [← habs]
    exact hB
  · refine iff_of_true rfl (Or.inr (Or.inr ?_))
    rw [← habs, ← hexp]
    exact hC
  · refine iff_of_false (by simp) ?_
    rintro (h | h | h)
    · exact hA h
    · rw [← habs] at h
      exact hB h
    · rw [← habs, ← hexp] at h
      exact hC h

theorem portfolio_submit_eq (pf : PortfolioState) (orderId symbol : String)
    (side : Side) (type : OrderType) (price : ℚ) (quantity : ℤ)
    (marketPrices : List (String × ℚ)) :
    pf.submitOrder orderId symbol side type price quantity marketPrices =
      (if pf.preTradeRiskCheck symbol side price quantity marketPrices then
        (true, { pf with om := (pf.om.submitOrder orderId symbol side type price quantity).1 },
          [(pf.om.submitOrder orderId symbol side type price quantity).2])
      else (false, pf, [])) := by
  unfold PortfolioState.submitOrder
  by_cases hc : pf.preTradeRiskCheck symbol side price quantity marketPrices = true
  · rw [if_neg (by simp [hc]), if_pos hc]
  · rw [if_pos (by simpa using hc), if_neg hc]

/-- C4 (amended): for a non-negative order price and non-negative mark
prices, `Portfolio::submitOrder` returns false exactly when (1)
side = BUY and `price × qty` exceeds cash, or (2) the prospective
position notional `|current position qty ± qty| × price` exceeds
`max_position_size`, or (3) the summed absolute notional of every
other non-flat symbol that has a mark price plus the prospective
notional exceeds `max_portfolio_exposure`; otherwise it forwards to
`OrderManager::submitOrder` (publishing its PENDING_NEW event) and
returns true. For a negative price the code differs from conditions
(2)–(3) because it takes `|qty × price|` rather than `|qty| × price`. -/
theorem portfolio_submitOrder_false_iff (pf : PortfolioState) (orderId symbol : String)
    (side : Side) (type : OrderType) (price : ℚ) (quantity : ℤ)
    (marketPrices : List (String × ℚ))
    (hp : 0 ≤ price) (hm : ∀ mp ∈ marketPrices.map Prod.snd, 0 ≤ mp) :
    ((pf.submitOrder orderId symbol side type price quantity marketPrices).1 = false ↔
      ((side = Side.BUY ∧ pf.cash < price * (quantity : ℚ)) ∨
        pf.maxPositionSize < |(specProspectiveQty pf symbol side quantity : ℚ)| * price ∨
        pf.maxPortfolioExposure <
          specOtherExposure pf symbol marketPrices +
            |(specProspectiveQty pf symbol side quantity : ℚ)| * price)) ∧
    ((pf.submitOrder orderId symbol side type price quantity marketPrices).1 = true →
      (pf.submitOrder orderId symbol side type price quantity marketPrices).2.1 =
        { pf with om := (pf.om.submitOrder orderId symbol side type price quantity).1 } ∧
      (pf.submitOrder orderId symbol side type price quantity marketPrices).2.2 =
        [(pf.om.submitOrder orderId symbol side type price quantity).2]) := by
  have hiff := preTradeRiskCheck_false_iff pf symbol side price quantity marketPrices hp hm
  rw [portfolio_submit_eq]
  by_cases hc : pf.preTradeRiskCheck symbol side price quantity marketPrices = true
  · rw [if_pos hc]
    refine ⟨?_, fun _ => ⟨rfl, rfl⟩⟩
    simp only [hc] at hiff
    constructor
    · intro h
      exact absurd h (by simp)
    · intro h
      exact absurd h (by simp [← hiff])
  · have hc' : pf.preTradeRiskCheck symbol side price quantity marketPrices = false := by
      simpa using hc
    rw [if_neg hc]
    refine ⟨?_, fun h => absurd h (by simp)⟩
    simp only [hc'] at hiff
    simpa using hiff

/-- C4 counterexample: at the negative price −1 the claim's reject
conditions all fail (the prospective notional `|qty′| × price` is
negative), yet the code rejects, because it computes `|qty′ × price|`.
So the claim's "exactly when" fails as stated. -/
theorem portfolio_submitOrder_negative_price_cex :
    (negPricePortfolio.submitOrder "O1" "A" Side.BUY OrderType.MARKET (-1) 5 []).1 = false ∧
    ¬ ((Side.BUY = Side.BUY ∧ negPricePortfolio.cash < (-1 : ℚ) * ((5 : ℤ) : ℚ)) ∨
       negPricePortfolio.maxPositionSize <
         |(specProspectiveQty negPricePortfolio "A" Side.BUY 5 : ℚ)| * (-1) ∨
       negPricePortfolio.maxPortfolioExposure <
         specOtherExposure negPricePortfolio "A" [] +
           |(specProspectiveQty negPricePortfolio "A" Side.BUY 5 : ℚ)| * (-1)) := by
  constructor
  · norm_num [PortfolioState.submitOrder, PortfolioState.preTradeRiskCheck,
      negPricePortfolio, OMState.getPosition, OMState.empty, lookupKey,
      PortfolioState.exposureLoop, OMState.getAllPositions]
  · norm_num [negPricePortfolio, specProspectiveQty, specOtherExposure,
      OMState.getPosition, OMState.empty, lookupKey, OMState.getAllPositions]

/-- Witness for C4 (amended): the spec's exposure-cap scenario — with
200 AAPL held at mark 150 and caps (100000, 50000), BUY 10 GOOGL @
2800 is rejected (30000 + 28000 > 50000). -/
theorem portfolio_submitOrder_false_iff_witness :
    (0 : ℚ) ≤ 2800 ∧
    ((exposurePortfolio.submitOrder "O2" "GOOGL" Side.BUY OrderType.LIMIT 2800 10
        [("AAPL", 150), ("GOOGL", 2800)]).1 = false ↔
      ((Side.BUY = Side.BUY ∧ exposurePortfolio.cash < (2800 : ℚ) * ((10 : ℤ) : ℚ)) ∨
        exposurePortfolio.maxPositionSize <
          |(specProspectiveQty exposurePortfolio "GOOGL" Side.BUY 10 : ℚ)| * 2800 ∨
        exposurePortfolio.maxPortfolioExposure <
          specOtherExposure exposurePortfolio "GOOGL" [("AAPL", 150), ("GOOGL", 2800)] +
            |(specProspectiveQty exposurePortfolio "GOOGL" Side.BUY 10 : ℚ)| * 2800)) := by
  refine ⟨by norm_num, ?_⟩
  exact (portfolio_submitOrder_false_iff exposurePortfolio "O2" "GOOGL" Side.BUY
    OrderType.LIMIT 2800 10 [("AAPL", 150), ("GOOGL", 2800)] (by norm_num)
    (by
      intro mp hmp
      simp only [List.map_cons, List.map_nil, List.mem_cons, List.not_mem_nil,
        or_false] at hmp
      rcases hmp with rfl | rfl <;> norm_num)).1

/-- C7 counterexample: an order whose status is `PENDING_CANCEL` does
NOT satisfy `Order::isActive` — the predicate used by `cancelOrder`,
`getActiveOrders`, `getActiveOrdersForSymbol` and
`getActiveOrderCount` — so the claimed active set
{PENDING_NEW, NEW, PARTIALLY_FILLED, PENDING_CANCEL} is wrong. -/
theorem order_isActive_pendingCancel_cex :
    Order.isActive
      { orderId := "O1", symbol := "A", side := Side.BUY, type := OrderType.LIMIT,
        status := OrderStatus.PENDING_CANCEL, limitPrice := 1, quantity := 1,
        filledQuantity := 0, averageFillPrice := 0, rejectReason := "" } = false ∧
    OMState.getActiveOrderCount
      { orders := [("O1",
          { orderId := "O1", symbol := "A", side := Side.BUY, type := OrderType.LIMIT,
            status := OrderStatus.PENDING_CANCEL, limitPrice := 1, quantity := 1,
            filledQuantity := 0, averageFillPrice := 0, rejectReason := "" })],
        positions := [] } = 0 := by
  constructor
  · rfl
  · rfl

/-- C7 (amended): the 'active' predicate used by `cancelOrder`,
`getActiveOrders`, `getActiveOrdersForSymbol` and
`getActiveOrderCount` holds exactly when the order's status is in
{PENDING_NEW, NEW, PARTIALLY_FILLED}; in particular an order in
status PENDING_CANCEL does NOT count as active. -/
theorem orderManager_active_predicate (o : Order) (st : OMState) :
    (o.isActive = true ↔
      (o.status = OrderStatus.PENDING_NEW ∨ o.status = OrderStatus.NEW ∨
        o.status = OrderStatus.PARTIALLY_FILLED)) ∧
    st.getActiveOrders = (st.orders.map Prod.snd).filter Order.isActive ∧
    st.getActiveOrdersForSymbol =
      (fun symbol => (st.orders.map Prod.snd).filter
        (fun o => o.isActive ∧ o.symbol = symbol)) ∧
    st.getActiveOrderCount = ((st.orders.map Prod.snd).filter Order.isActive).length ∧
    (∀ oid, st.cancelOrder oid ≠ none ↔
      ∃ o', st.getOrder oid = some o' ∧ o'.isActive = true) := by
  refine ⟨?_, rfl, rfl, rfl, ?_⟩
  · cases hs : o.status <;> simp [Order.isActive, hs]
  · intro oid
    unfold OMState.cancelOrder OMState.getOrder
    rcases h : lookupKey oid st.orders with - | o'
    · simp
    · by_cases ha : o'.isActive <;> simp [ha]

/-- Witness for C7 (amended): a PENDING_NEW order is active, and
cancelling it publishes a PENDING_CANCEL event. -/
theorem orderManager_active_predicate_witness :
    ((Order.init "O1" "A" Side.BUY OrderType.LIMIT 1 1).isActive = true ↔
      ((Order.init "O1" "A" Side.BUY OrderType.LIMIT 1 1).status = OrderStatus.PENDING_NEW ∨
        (Order.init "O1" "A" Side.BUY OrderType.LIMIT 1 1).status = OrderStatus.NEW ∨
        (Order.init "O1" "A" Side.BUY OrderType.LIMIT 1 1).status =
          OrderStatus.PARTIALLY_FILLED)) ∧
    (Order.init "O1" "A" Side.BUY OrderType.LIMIT 1 1).isActive = true :=
  ⟨(orderManager_active_predicate (Order.init "O1" "A" Side.BUY OrderType.LIMIT 1 1)
      OMState.empty).1, rfl⟩

theorem processQueueLoop_all (subs : List (EventType × List Subscription))
    (queue : List EventType) (processed : ℕ) :
    BusState.processQueueLoop subs queue 0 processed =
      (queue.map (BusState.handlersFor subs), []) := by
  induction queue generalizing processed with
  | nil => rfl
  | cons t rest ih => simp [BusState.processQueueLoop, ih]

/-- C8 counterexample: draining a queue of one FILL event through
`processQueue` invokes the subscribed handler but leaves the
processed-event counter at 0, whereas `publish` of the same event on
the same bus increments it to 1 — so `processQueue` does NOT dispatch
"exactly as publish would". -/
theorem processQueue_counter_cex :
    (oneQueuedFillBus.processQueue 0).1 = [[7]] ∧
    (oneQueuedFillBus.processQueue 0).2.eventCount = 0 ∧
    (oneQueuedFillBus.publish EventType.FILL).2.eventCount = 1 := by
  refine ⟨?_, rfl, rfl⟩
  rfl

/-- C8 (amended): `processQueue` with no limit drains the whole FIFO
queue and dispatches each queued event to the same handlers, in the
same subscription order, as a `publish` of that event in the same bus
state would — but unlike `publish` it does not increment the
processed-event counter. -/
theorem processQueue_vs_publish (st : BusState) :
    (st.processQueue 0).1 = st.queue.map (BusState.handlersFor st.subscribers) ∧
    (st.processQueue 0).2.eventCount = st.eventCount ∧
    (st.processQueue 0).2.queue = [] ∧
    (st.processQueue 0).2.subscribers = st.subscribers ∧
    ∀ t : EventType, (st.publish t).1 = BusState.handlersFor st.subscribers t ∧
      (st.publish t).2.eventCount = st.eventCount + 1 := by
  unfold BusState.processQueue
  rw [processQueueLoop_all]
  exact ⟨rfl, rfl, rfl, rfl, fun t => ⟨rfl, rfl⟩⟩

theorem runHandlers_append (pre : List ThrowHandler) (h : ThrowHandler)
    (post : List ThrowHandler)
    (hpre : ∀ x ∈ pre, x.throws = false) (hthrow : h.throws = true) :
    runHandlers (pre ++ h :: post) = (pre.map ThrowHandler.tag ++ [h.tag], true) := by
  induction pre with
  | nil => simp [runHandlers, hthrow]
  | cons x xs ih =>
    have hx : x.throws = false := hpre x (by simp)
    have ih' := ih (fun y hy => hpre y (by simp [hy]))
    simp [runHandlers, hx, ih']

/-- C9 counterexample: two handlers subscribed to ORDER, the first one
throwing — `publish` (which wraps no try/catch around `handler(event)`)
invokes only the first handler, the exception escapes (second
component `true`), and the remaining handler with tag 2 is never
invoked. -/
theorem publish_exception_cex :
    publishWithExceptions [(EventType.ORDER, [⟨1, true⟩, ⟨2, false⟩])] EventType.ORDER =
      ([1], true) ∧ (2 : ℕ) ∉ ([1] : List ℕ) := by
  exact ⟨rfl, by decide⟩

/-- C9 (amended): if a handler invoked during a `publish` call throws,
the exception is NOT caught at the dispatch boundary: it propagates
out of `publish`, the handlers before the throwing one having run and
every handler after it being skipped for that publish. -/
theorem publish_exception_propagates (subscribers : List (EventType × List ThrowHandler))
    (t : EventType) (pre : List ThrowHandler) (h : ThrowHandler) (post : List ThrowHandler)
    (hsub : lookupKey t subscribers = some (pre ++ h :: post))
    (hpre : ∀ x ∈ pre, x.throws = false)
    (hthrow : h.throws = true) :
    publishWithExceptions subscribers t = (pre.map ThrowHandler.tag ++ [h.tag], true) := by
  unfold publishWithExceptions
  rw [hsub]
  simp only [Option.getD_some]
  exact runHandlers_append pre h post hpre hthrow

/-- Witness for C9 (amended): a non-throwing handler, then a throwing
one, then another handler: exactly the first two tags are invoked and
the exception escapes. -/
theorem publish_exception_propagates_witness :
    (∀ x ∈ ([⟨5, false⟩] : List ThrowHandler), x.throws = false) ∧
    publishWithExceptions
      [(EventType.ORDER, [⟨5, false⟩, ⟨6, true⟩, ⟨7, false⟩])] EventType.ORDER =
      ([5, 6], true) := by
  refine ⟨by decide, ?_⟩
  have h := publish_exception_propagates
    [(EventType.ORDER, [⟨5, false⟩, ⟨6, true⟩, ⟨7, false⟩])] EventType.ORDER
    [⟨5, false⟩] ⟨6, true⟩ [⟨7, false⟩] rfl (by decide) rfl
  simpa using h

theorem processFill_no_cancel (config : ExchConfig) (mp : List (String × ℚ))
    (rr : Bool) (uP uF : ℚ) (oid sym : String) (side : Side) (type : OrderType)
    (price : ℚ) (qty : ℤ) :
    ((processFill config mp rr uP uF oid sym side type price qty).all
      (fun e => !e.isCancelled)) = true := by
  unfold processFill
  split_ifs <;> simp [ExchEvent.isCancelled] <;>
    (rintro x - - (rfl | rfl) <;> rfl)

theorem exchSubmitOrder_no_cancel (config : ExchConfig) (mp : List (String × ℚ))
    (rf rr : Bool) (uR uP uF : ℚ) (oid sym : String) (side : Side) (type : OrderType)
    (price : ℚ) (qty : ℤ) :
    ((exchSubmitOrder config mp rf rr uR uP uF oid sym side type price qty).all
      (fun e => !e.isCancelled)) = true := by
  unfold exchSubmitOrder
  split_ifs with h1 h2 h3
  · rfl
  · rw [List.all_append, processFill_no_cancel]
    rfl
  · rw [List.all_append, processFill_no_cancel]
    rfl
  · rfl

theorem exchStep_preserves (st : ExchState) (op : ExchOp)
    (h : st.pendingOrders = []) :
    (exchStep st op).1.pendingOrders = [] ∧
    ((exchStep st op).2.all (fun e => !e.isCancelled)) = true := by
  cases op with
  | start => exact ⟨h, rfl⟩
  | stop => exact ⟨h, rfl⟩
  | setMarketPrice symbol price => exact ⟨h, rfl⟩
  | setConfig config => exact ⟨h, rfl⟩
  | submit orderId symbol side type price quantity uR uP uF rf rr =>
    exact ⟨h, exchSubmitOrder_no_cancel _ _ _ _ _ _ _ _ _ _ _ _ _⟩
  | cancel orderId =>
    simp only [exchStep]
    unfold exchCancelOrder
    rw [h]
    exact ⟨h, rfl⟩
  | orderEvent e uR uP uF rf rr =>
    simp only [exchStep]
    split_ifs with h1 h2
    · exact ⟨h, exchSubmitOrder_no_cancel _ _ _ _ _ _ _ _ _ _ _ _ _⟩
    · unfold exchCancelOrder
      rw [h]
      exact ⟨h, rfl⟩
    · exact ⟨h, rfl⟩

/-- C10: starting from a fresh SimulatedExchange, after any sequence
of operations (lifecycle calls, price updates, order-event deliveries,
direct submissions and cancels) the `pendingOrders_` map is still
empty — nothing ever inserts into it — so `cancelOrder` is a no-op
that changes nothing and publishes nothing, and the exchange never
publishes an Order event with status CANCELLED. -/
theorem exchange_pendingOrders_always_empty (config : ExchConfig) (ops : List ExchOp) :
    (exchRun (ExchState.init config) ops).1.pendingOrders = [] ∧
    ((exchRun (ExchState.init config) ops).2.all (fun e => !e.isCancelled)) = true ∧
    ∀ orderId, exchCancelOrder (exchRun (ExchState.init config) ops).1 orderId =
      ((exchRun (ExchState.init config) ops).1, []) := by
  have key : ∀ (l : List ExchOp) (st : ExchState), st.pendingOrders = [] →
      (exchRun st l).1.pendingOrders = [] ∧
      ((exchRun st l).2.all (fun e => !e.isCancelled)) = true := by
    intro l
    induction l with
    | nil => intro st h; exact ⟨h, rfl⟩
    | cons op rest ih =>
      intro st h
      obtain ⟨h1, h2⟩ := exchStep_preserves st op h
      obtain ⟨h3, h4⟩ := ih (exchStep st op).1 h1
      refine ⟨h3, ?_⟩
      show (((exchStep st op).2 ++ (exchRun (exchStep st op).1 rest).2).all
        (fun e => !e.isCancelled)) = true
      rw [List.all_append, h2, h4]
      rfl
  obtain ⟨h1, h2⟩ := key ops (ExchState.init config) rfl
  refine ⟨h1, h2, ?_⟩
  intro orderId
  unfold exchCancelOrder
  rw [h1]
  rfl

/-- C6: with `partial_fill_rate = 1.0` and `instant_fills = true` on a
running exchange, an accepted BUY MARKET submission for 100 shares
publishes NEW, then exactly two Fill events whose quantities sum to
100 at the same fill price, then the terminal Order event FILLED with
`filled = 100`. The two random draws are the uniform-[0,1) partial
draw `uPartial` and the uniform-[0.5,0.9) split fraction `uFrac`. -/
theorem exchange_partial_fill_totality
    (config : ExchConfig) (marketPrices : List (String × ℚ))
    (uReject uPartial uFrac : ℚ) (orderId symbol : String) (price : ℚ)
    (hpfr : config.partialFillRate = 1)
    (hinstant : config.instantFills = true)
    (haccept : shouldReject config.rejectionRate uReject = false)
    (hu1 : uPartial < 1)
    (hf0 : 1/2 ≤ uFrac) (hf1 : uFrac < 9/10) :
    ∃ q1 : ℤ, 50 ≤ q1 ∧ q1 ≤ 89 ∧
      exchSubmitOrder config marketPrices true true uReject uPartial uFrac
          orderId symbol Side.BUY OrderType.MARKET price 100 =
        [ExchEvent.order (OrderEventData.mk orderId symbol Side.BUY OrderType.MARKET
            OrderStatus.NEW price 100 0 ""),
         ExchEvent.fill (FillEvent.mk orderId symbol Side.BUY
            (applySlippage config marketPrices symbol Side.BUY price) q1 ""),
         ExchEvent.order (OrderEventData.mk orderId symbol Side.BUY OrderType.MARKET
            OrderStatus.PARTIALLY_FILLED price 100 q1 ""),
         ExchEvent.fill (FillEvent.mk orderId symbol Side.BUY
            (applySlippage config marketPrices symbol Side.BUY price) (100 - q1) ""),
         ExchEvent.order (OrderEventData.mk orderId symbol Side.BUY OrderType.MARKET
            OrderStatus.FILLED price 100 100 "")] ∧
      q1 + (100 - q1) = 100 := by
  have hpf : shouldPartialFill config.partialFillRate uPartial = true := by
    unfold shouldPartialFill
    rw [hpfr, if_neg (by norm_num)]
    exact decide_eq_true hu1
  have hcast : (((100 : ℤ) : ℚ)) = (100 : ℚ) := by norm_num
  have hx0 : (0 : ℚ) ≤ (100 : ℚ) * uFrac := by nlinarith
  have hfl_lo : (50 : ℤ) ≤ ⌊(100 : ℚ) * uFrac⌋ := by
    apply Int.le_floor.mpr
    push_cast
    linarith
  have hfl_hi : ⌊(100 : ℚ) * uFrac⌋ < 90 := by
    apply Int.floor_lt.mpr
    push_cast
    linarith
  have htr : ratTrunc ((100 : ℚ) * uFrac) = ⌊(100 : ℚ) * uFrac⌋ := by
    unfold ratTrunc
    rw [if_pos hx0]
  have hq1 : max (ratTrunc (((100 : ℤ) : ℚ) * uFrac)) 1 = ⌊(100 : ℚ) * uFrac⌋ := by
    rw [hcast, htr]
    exact max_eq_left (by omega)
  refine ⟨⌊(100 : ℚ) * uFrac⌋, by omega, by omega, ?_, by ring⟩
  unfold exchSubmitOrder
  rw [if_neg (by simp [haccept]), if_pos hinstant]
  unfold processFill
  rw [if_pos rfl, if_pos hpf, hq1]
  have hlt : ⌊(100 : ℚ) * uFrac⌋ < 100 := by omega
  simp [hlt]

/-- Witness for C6: concrete configuration (latency 10ms, rejection
rate 0, partial-fill rate 1, 5bps slippage, instant fills), rejection
draw 0, partial draw 0, split fraction 1/2, BUY MARKET 100 @ 100. -/
theorem exchange_partial_fill_totality_witness :
    ((0 : ℚ) < 1 ∧ (1/2 : ℚ) ≤ 1/2 ∧ (1/2 : ℚ) < 9/10) ∧
    ∃ q1 : ℤ, 50 ≤ q1 ∧ q1 ≤ 89 ∧
      exchSubmitOrder (ExchConfig.mk 10 0 1 5 true) [] true true 0 0 (1/2)
          "O1" "AAPL" Side.BUY OrderType.MARKET 100 100 =
        [ExchEvent.order (OrderEventData.mk "O1" "AAPL" Side.BUY OrderType.MARKET
            OrderStatus.NEW 100 100 0 ""),
         ExchEvent.fill (FillEvent.mk "O1" "AAPL" Side.BUY
            (applySlippage (ExchConfig.mk 10 0 1 5 true) [] "AAPL" Side.BUY 100) q1 ""),
         ExchEvent.order (OrderEventData.mk "O1" "AAPL" Side.BUY OrderType.MARKET
            OrderStatus.PARTIALLY_FILLED 100 100 q1 ""),
         ExchEvent.fill (FillEvent.mk "O1" "AAPL" Side.BUY
            (applySlippage (ExchConfig.mk 10 0 1 5 true) [] "AAPL" Side.BUY 100) (100 - q1) ""),
         ExchEvent.order (OrderEventData.mk "O1" "AAPL" Side.BUY OrderType.MARKET
            OrderStatus.FILLED 100 100 100 "")] ∧
      q1 + (100 - q1) = 100 := by
  refine ⟨⟨by norm_num, le_refl _, by norm_num⟩, ?_⟩
  exact exchange_partial_fill_totality (ExchConfig.mk 10 0 1 5 true) [] 0 0 (1/2)
    "O1" "AAPL" 100 rfl rfl (by norm_num [shouldReject]) (by norm_num)
    (le_refl _) (by norm_num)

end Engine
